/-
Verification of the ENUNU synthesis orchestration pipeline
(src/synthesis/hts2wav.py) against its natural-language specification.

The Python source is shallowly embedded below.  Raw audio samples are
modelled as rational numbers (the exact values the floating-point code
approximates); a numpy operation that yields a non-finite IEEE value
(NaN or ±inf, e.g. division by a zero maximum) is modelled by `none` in
`Option ℚ`, and a numpy/Python call that raises is modelled by
`Except.error`.  External collaborators (predictors, the question-set
loader, the vocoder, the file system) are parameters of the embedded
functions, so the theorems quantify over their behaviour.
-/
import Mathlib

namespace Hts2Wav

/-- Errors raised by the embedded pipeline.  The constructor names follow
the error taxonomy of the spec; the comments name the concrete Python
exception each one models. -/
inductive SynthError
  /-- ConfigurationError: a required question path is unresolvable
  (the external loader is handed `None`). -/
  | configurationError
  /-- numpy `ValueError`: reduction (`np.max`) over a zero-size array. -/
  | emptyReductionError
  /-- The Japanese-message `ValueError` raised by the final `else`
  branch of `generate_wav_file`. -/
  | bitDepthError
  /-- Python `ValueError` from unpacking `line.split()` into exactly
  three variables. -/
  | unpackError
  /-- ArtifactWriteError: an external file write fails. -/
  | artifactWriteError
  deriving DecidableEq, Repr

/-- `np.max(np.abs(wav))`: maximum of the absolute values.  numpy raises
a `ValueError` on a zero-size array, so the empty list yields `none`. -/
def npMaxAbs : List ℚ → Option ℚ
  | [] => none
  | x :: xs => some (xs.foldl (fun m y => max m |y|) |x|)

/-- `estimate_bit_depth` (hts2wav.py lines 67-81): classify the maximum
gain into `int32` / `int16` / `float` with strict comparisons.  `none`
models the `np.max` failure on an empty array. -/
def estimate_bit_depth (wav : List ℚ) : Option String :=
  match npMaxAbs wav with
  | none => none
  | some max_gain =>
      if max_gain > 8388608 then some "int32"
      else if max_gain > 8 then some "int16"
      else some "float"

/-- The `if/elif/elif/else` dispatch of `generate_wav_file`
(hts2wav.py lines 93-102) on the estimated bit depth string. -/
def scaleByDepth (depth : String) (wav : List ℚ) : Except SynthError (List ℚ) :=
  if depth = "int16" then .ok (wav.map (fun x => x / 32767))
  else if depth = "int32" then .ok (wav.map (fun x => x / 2147483647))
  else if depth = "float" then .ok wav
  else .error .bitDepthError

/-- The bit-depth normalization step of `generate_wav_file`: estimate
the training bit depth, then rescale accordingly. -/
def bitDepthNormalize (wav : List ℚ) : Except SynthError (List ℚ) :=
  match estimate_bit_depth wav with
  | none => .error .emptyReductionError
  | some depth => scaleByDepth depth wav

/-- IEEE division of a finite sample by a scalar: a zero divisor yields
a non-finite value (`0/0 = NaN`), modelled by `none`. -/
def npDiv (x m : ℚ) : Option ℚ :=
  if m = 0 then none else some (x / m)

/-- `generate_wav_file` (hts2wav.py lines 84-110) up to the final cast
and disk write: bit-depth normalization, then, when `gain_normalize` is
set, the unguarded division `wav = wav / np.max(np.abs(wav))`. -/
def generate_wav_file (gain_normalize : Bool) (wav : List ℚ) :
    Except SynthError (List (Option ℚ)) :=
  match bitDepthNormalize wav with
  | .error e => .error e
  | .ok w =>
      if gain_normalize then
        match npMaxAbs w with
        | none => .error .emptyReductionError
        | some m => .ok (w.map (fun x => npDiv x m))
      else .ok (w.map some)

/-- The fields of the run configuration consumed by the timing part of
`synthesis` (hts2wav.py).  Paths are character lists; `none` is the Python
`None`. -/
structure SynthConfig where
  ground_truth_duration : Bool
  gain_normalize : Bool
  question_path : Option (List Char)
  timelag_question_path : Option (List Char)
  duration_question_path : Option (List Char)
  acoustic_question_path : Option (List Char)
  deriving DecidableEq, Repr

/-- `set_each_question_path` (hts2wav.py lines 113-122): for each stage,
an unset (`None`) per-stage question path falls back to the global
`question_path`; a set one is kept. -/
def set_each_question_path (c : SynthConfig) : SynthConfig :=
  { c with
    timelag_question_path :=
      match c.timelag_question_path with
      | none => c.question_path
      | some p => some p
    duration_question_path :=
      match c.duration_question_path with
      | none => c.question_path
      | some p => some p
    acoustic_question_path :=
      match c.acoustic_question_path with
      | none => c.question_path
      | some p => some p }

/-- Result of `load_qst` (hts2wav.py lines 125-134): the two dictionaries
returned by the external `hts.load_question_set`, plus the derived
`pitch_indices = np.arange(len(binary_dict), len(binary_dict) + 3)` and
`pitch_idx = len(binary_dict) + 1`. -/
structure QstData (α β : Type) where
  binary_dict : List α
  continuous_dict : List β
  pitch_indices : List ℕ
  pitch_idx : ℕ
  deriving Repr

/-- `load_qst` (hts2wav.py lines 125-134), with the external
`hts.load_question_set` result `(binary_dict, continuous_dict)` given as
arguments: computes the derived pitch index data. -/
def load_qst (binary_dict : List α) (continuous_dict : List β) : QstData α β :=
  { binary_dict := binary_dict
    continuous_dict := continuous_dict
    pitch_indices := List.range' binary_dict.length 3
    pitch_idx := binary_dict.length + 1 }

/-- Calling `load_qst` on a resolved question path.  Modelled from the
spec: the external question-set loader (`hts.load_question_set`, not in
this repository) fails when handed an unresolved (`None`) path —
"fails with ConfigurationError if `ground_truth_duration` is false but no
question-set path is resolvable".  On a real path it returns the dictionaries of the
loader, abstracted as the function `loader`. -/
def load_qst_from_path (loader : List Char → List α × List β) :
    Option (List Char) → Except SynthError (QstData α β)
  | none => .error .configurationError
  | some p => .ok (load_qst (loader p).1 (loader p).2)

/-- The two prediction stages that the timing part of `synthesis` may
invoke. -/
inductive Stage
  | timelag
  | duration
  deriving DecidableEq, Repr

/-- Timing part of `synthesis` (hts2wav.py lines 150-184), after
`set_each_question_path` has run.  `T` is the label-timeline type, `L`
and `D` the time-lag and duration prediction results; the external
predictors and the duration post-processor are parameters.  Returns the
duration-modified labels together with the list of prediction stages
that were invoked, in order. -/
def resolveTiming {α β T L D : Type} (c : SynthConfig) (labels : T)
    (loader : List Char → List α × List β)
    (predict_timelag : T → QstData α β → L)
    (predict_duration : T → L → QstData α β → D)
    (postprocess_duration : T → D → L → T) :
    Except SynthError (T × List Stage) :=
  if c.ground_truth_duration then
    .ok (labels, [])
  else
    match load_qst_from_path loader c.timelag_question_path with
    | .error e => .error e
    | .ok timelag_qst =>
        let lag := predict_timelag labels timelag_qst
        match load_qst_from_path loader c.duration_question_path with
        | .error e => .error e
        | .ok duration_qst =>
            let durations := predict_duration labels lag duration_qst
            .ok (postprocess_duration labels durations lag,
                 [Stage.timelag, Stage.duration])

/-- The timing-resolution part of `synthesis` (hts2wav.py lines
144-184): resolve per-stage question paths, then run `resolveTiming`. -/
def synthesisTiming {α β T L D : Type} (c : SynthConfig) (labels : T)
    (loader : List Char → List α × List β)
    (predict_timelag : T → QstData α β → L)
    (predict_duration : T → L → QstData α β → D)
    (postprocess_duration : T → D → L → T) :
    Except SynthError (T × List Stage) :=
  resolveTiming (set_each_question_path c) labels loader
    predict_timelag predict_duration postprocess_duration

/-- Python `str.split()` with no argument, on a character list: split on
runs of whitespace, discarding empty tokens.  `acc` is the current token
reversed. -/
def pySplitAux : List Char → List Char → List (List Char)
  | [], acc => if acc = [] then [] else [acc.reverse]
  | c :: rest, acc =>
      if c.isWhitespace then
        if acc = [] then pySplitAux rest [] else acc.reverse :: pySplitAux rest []
      else pySplitAux rest (c :: acc)

/-- Python `s.split()` on a character list. -/
def pySplit (s : List Char) : List (List Char) := pySplitAux s []

/-- Python `s.find(ch)`: index of the first occurrence, `-1` if absent. -/
def pyFind (s : List Char) (ch : Char) : Int :=
  match s with
  | [] => -1
  | x :: xs =>
      if x = ch then 0
      else if pyFind xs ch = -1 then -1 else pyFind xs ch + 1

/-- Normalize a Python slice bound: a negative index counts from the
end (clamped at 0), a non-negative one is clamped at the length. -/
def pyBound (len : ℕ) (i : Int) : ℕ :=
  if i < 0 then (i + len).toNat else min i.toNat len

/-- Python slice `s[a:b]` on a character list. -/
def pySlice (s : List Char) (a b : Int) : List Char :=
  (s.take (pyBound s.length b)).drop (pyBound s.length a)

/-- One iteration of the timing-emission loop (hts2wav.py lines
302-305): `t_start, t_end, context = line.split()` (raising a
`ValueError` unless exactly three tokens), then
the reslicing of the context from one past the first `-` up to the
first `+`, then the formatted line joining the three fields with
spaces and ending in a newline. -/
def emitTimingLine (line : List Char) : Except SynthError (List Char) :=
  match pySplit line with
  | [t_start, t_end, context] =>
      let core := pySlice context (pyFind context '-' + 1) (pyFind context '+')
      .ok (t_start ++ ' ' :: (t_end ++ ' ' :: (core ++ ['\n'])))
  | _ => .error .unpackError

/-- The whole timing-emission loop (hts2wav.py lines 300-306): the
accumulated string `s` over the label lines; an exception on any line
aborts the loop before `f_lab.write(s)` runs, so nothing is emitted. -/
def emitTimingLines : List (List Char) → Except SynthError (List Char)
  | [] => .ok []
  | l :: ls =>
      match emitTimingLine l with
      | .error e => .error e
      | .ok s =>
          match emitTimingLines ls with
          | .error e => .error e
          | .ok rest => .ok (s ++ rest)

/-- The substring of `context` strictly between positions `i` and `j`
(exclusive at both ends), as the spec describes the core-phoneme
extraction: "the substring strictly between the first `-` and the first
`+` characters". -/
def strictlyBetween (context : List Char) (i j : ℕ) : List Char :=
  (context.take j).drop (i + 1)

/-- Scanner for Python `s.replace(old, new)` with nonempty `old`: when
`skip` is positive the character belongs to an already-replaced match
and is discarded; at `skip = 0` a match of `pat` starting here emits
`rep` and skips the rest of the match, otherwise the character is kept.
Matches are non-overlapping, found left to right. -/
def pyReplaceAux (pat rep : List Char) : ℕ → List Char → List Char
  | _, [] => []
  | 0, c :: rest =>
      if pat.isPrefixOf (c :: rest) then
        rep ++ pyReplaceAux pat rep (pat.length - 1) rest
      else c :: pyReplaceAux pat rep 0 rest
  | skip + 1, _ :: rest => pyReplaceAux pat rep skip rest

/-- Python `s.replace(old, new)` on character lists: replace every
non-overlapping occurrence of `old`, scanning left to right; an empty
`old` matches at every position (CPython behaviour). -/
def pyReplace (s pat rep : List Char) : List Char :=
  if pat = [] then rep ++ (s.map (fun c => c :: rep)).flatten
  else pyReplaceAux pat rep 0 s

/-- Whether `pat` occurs as a contiguous substring of `s`. -/
def containsSub (pat : List Char) : List Char → Bool
  | [] => pat.isPrefixOf []
  | c :: xs => pat.isPrefixOf (c :: xs) || containsSub pat xs

/-- The five artifacts written by `hts2wav` (hts2wav.py lines 298-314). -/
inductive Artifact
  | timing
  | f0
  | mgc
  | bap
  | audio
  deriving DecidableEq, Repr

/-- The characters of the literal `.wav`. -/
def dotWav : List Char := ['.', 'w', 'a', 'v']

/-- The path each artifact is written to (hts2wav.py lines 299-314):
the four auxiliary paths come from `.replace` of `.wav` on the
output path,
the audio from `out_wav_path` itself. -/
def artifactPath (out_wav_path : List Char) : Artifact → List Char
  | .timing => pyReplace out_wav_path dotWav ('_' :: "timing.lab".toList)
  | .f0 => pyReplace out_wav_path dotWav ('.' :: "f0".toList)
  | .mgc => pyReplace out_wav_path dotWav ('.' :: "mgc".toList)
  | .bap => pyReplace out_wav_path dotWav ('.' :: "bap".toList)
  | .audio => out_wav_path

/-- The order in which `hts2wav` (lines 298-314) writes its artifacts:
timing file, `.f0`, `.mgc`, `.bap`, then the audio file. -/
def emissionOrder : List Artifact :=
  [Artifact.timing, Artifact.f0, Artifact.mgc, Artifact.bap, Artifact.audio]

/-- Straight-line execution of a list of artifact writes: `outcome a`
is `none` when the write of `a` (including, for the audio artifact, the
bit-depth/gain normalization inside `generate_wav_file`) succeeds and
`some e` when it raises `e`.  Returns the writes actually performed, in
order, paired with the first error; an exception aborts the remaining
writes but the performed ones stay (no rollback). -/
def runEmissionFrom (out_wav_path : List Char)
    (outcome : Artifact → Option SynthError) :
    List Artifact → List (List Char × Artifact) × Option SynthError
  | [] => ([], none)
  | a :: rest =>
      match outcome a with
      | some e => ([], some e)
      | none =>
          let r := runEmissionFrom out_wav_path outcome rest
          ((artifactPath out_wav_path a, a) :: r.1, r.2)

/-- The artifact-emission part of `hts2wav` (lines 298-314). -/
def runEmission (out_wav_path : List Char)
    (outcome : Artifact → Option SynthError) :
    List (List Char × Artifact) × Option SynthError :=
  runEmissionFrom out_wav_path outcome emissionOrder

/-- The content found at path `p` after a sequence of writes: the last
write to `p` wins (each write truncates/overwrites the file). -/
def fsFinal (writes : List (List Char × Artifact)) (p : List Char) :
    Option Artifact :=
  (writes.reverse.find? (fun w => w.1 == p)).map (fun w => w.2)

/-! ### Theorems -/

/-- C1: the bit-depth normalization step is the exact piecewise function
on `max_gain = max(abs(wav))`: above 8388608 every sample is divided by
2147483647, else above 8 every sample is divided by 32767, else the
samples are left unscaled, with strict comparisons at both thresholds. -/
theorem c1_bit_depth_piecewise (wav : List ℚ) (m : ℚ)
    (h : npMaxAbs wav = some m) :
    (m > 8388608 →
      bitDepthNormalize wav = .ok (wav.map (fun x => x / 2147483647))) ∧
    (m ≤ 8388608 → m > 8 →
      bitDepthNormalize wav = .ok (wav.map (fun x => x / 32767))) ∧
    (m ≤ 8 → bitDepthNormalize wav = .ok wav) := by
  unfold bitDepthNormalize estimate_bit_depth
  rw [h]
  dsimp only
  refine ⟨fun hm => ?_, fun h1 h2 => ?_, fun h1 => ?_⟩
  · rw [if_pos hm]
    rfl
  · rw [if_neg (not_lt.mpr h1), if_pos h2]
    rfl
  · rw [if_neg (not_lt.mpr (by linarith : m ≤ 8388608)), if_neg (not_lt.mpr h1)]
    rfl

/-- Witness for C1 at the concrete input `[10]`, which falls in the
16-bit bucket. -/
theorem c1_witness :
    bitDepthNormalize [(10 : ℚ)] = .ok [10 / 32767] :=
  (c1_bit_depth_piecewise [10] 10 (by decide)).2.1 (by norm_num) (by norm_num)

/-- C2 (code bug): on the all-zero signal with `gain_normalize` set, the
unguarded division `wav / np.max(np.abs(wav))` divides by a zero maximum
and produces a non-finite (NaN) sample, not the all-zero output the spec
requires. -/
theorem c2_gain_normalize_divides_by_zero :
    generate_wav_file true [(0 : ℚ)] = .ok [none] ∧
    ([none] : List (Option ℚ)) ≠ [some (0 : ℚ)] := by
  exact ⟨rfl, by decide⟩

/-- C8 counterexample: on the empty sample array, `np.max` raises, so
`estimate_bit_depth` is not total and returns none of the three
recognized strings. -/
theorem c8_empty_array_counterexample :
    estimate_bit_depth ([] : List ℚ) = none ∧
    (none : Option String) ≠ some "int32" ∧
    (none : Option String) ≠ some "int16" ∧
    (none : Option String) ≠ some "float" := by
  refine ⟨rfl, by decide, by decide, by decide⟩

/-- C8 (amended): for every nonempty input array `estimate_bit_depth`
returns one of exactly `int32`, `int16`, `float`, so the error branch in
`generate_wav_file` is unreachable for nonempty input; and for any depth
string outside the recognized buckets the dispatch raises rather than
silently defaulting to some scale. -/
theorem c8_bit_depth_classification :
    (∀ wav : List ℚ, wav ≠ [] →
      estimate_bit_depth wav = some "int32" ∨
      estimate_bit_depth wav = some "int16" ∨
      estimate_bit_depth wav = some "float") ∧
    (∀ (d : String) (wav : List ℚ),
      d ≠ "int16" → d ≠ "int32" → d ≠ "float" →
      scaleByDepth d wav = .error .bitDepthError) := by
  constructor
  · intro wav hw
    match wav with
    | x :: xs =>
      unfold estimate_bit_depth npMaxAbs
      dsimp only
      split
      · left; rfl
      · split
        · right; left; rfl
        · right; right; rfl
  · intro d wav h1 h2 h3
    simp [scaleByDepth, h1, h2, h3]

/-- Witness for C8 (amended) at the nonempty array `[1]` and the
unrecognized depth string `"int24"`. -/
theorem c8_witness :
    (estimate_bit_depth [(1 : ℚ)] = some "int32" ∨
     estimate_bit_depth [(1 : ℚ)] = some "int16" ∨
     estimate_bit_depth [(1 : ℚ)] = some "float") ∧
    scaleByDepth "int24" [(1 : ℚ)] = .error .bitDepthError :=
  ⟨c8_bit_depth_classification.1 [1] (by decide),
   c8_bit_depth_classification.2 "int24" [1]
     (by decide) (by decide) (by decide)⟩

/-- C3: with `ground_truth_duration` true, the timing resolution step
returns the loaded input timeline unchanged and invokes neither the
time-lag predictor nor the duration predictor (the list of invoked
stages is empty), for every timeline, loader and predictors. -/
theorem c3_ground_truth_pass_through {α β T L D : Type} (c : SynthConfig)
    (labels : T) (loader : List Char → List α × List β)
    (predict_timelag : T → QstData α β → L)
    (predict_duration : T → L → QstData α β → D)
    (postprocess_duration : T → D → L → T)
    (h : c.ground_truth_duration = true) :
    synthesisTiming c labels loader predict_timelag predict_duration
      postprocess_duration = .ok (labels, []) := by
  simp [synthesisTiming, resolveTiming, set_each_question_path, h]

/-- Witness for C3 at a concrete configuration and timeline. -/
theorem c3_witness :
    synthesisTiming (⟨true, false, none, none, none, none⟩ : SynthConfig)
      (7 : ℕ) (fun _ => (([] : List ℕ), ([] : List ℕ)))
      (fun _ _ => (0 : ℕ)) (fun _ _ _ => (0 : ℕ)) (fun l _ _ => l) =
      .ok (7, []) :=
  c3_ground_truth_pass_through _ _ _ _ _ _ rfl

/-- C4: with `ground_truth_duration` false and no resolvable question
path (per-stage and global both unset) for the time-lag or the duration
stage, the timing part of `synthesis` fails with a ConfigurationError. -/
theorem c4_unresolvable_question_path {α β T L D : Type} (c : SynthConfig)
    (labels : T) (loader : List Char → List α × List β)
    (predict_timelag : T → QstData α β → L)
    (predict_duration : T → L → QstData α β → D)
    (postprocess_duration : T → D → L → T)
    (hgtd : c.ground_truth_duration = false)
    (h : (c.timelag_question_path = none ∧ c.question_path = none) ∨
         (c.duration_question_path = none ∧ c.question_path = none)) :
    synthesisTiming c labels loader predict_timelag predict_duration
      postprocess_duration = .error .configurationError := by
  rcases h with ⟨h1, h2⟩ | ⟨h1, h2⟩
  · simp [synthesisTiming, resolveTiming, set_each_question_path, hgtd, h1,
      h2, load_qst_from_path]
  · cases htl : c.timelag_question_path with
    | none =>
        simp [synthesisTiming, resolveTiming, set_each_question_path, hgtd,
          htl, h1, h2, load_qst_from_path]
    | some p =>
        simp [synthesisTiming, resolveTiming, set_each_question_path, hgtd,
          htl, h1, h2, load_qst_from_path]

/-- Witness for C4 at a concrete configuration with every question path
unset. -/
theorem c4_witness :
    synthesisTiming (⟨false, false, none, none, none, none⟩ : SynthConfig)
      (7 : ℕ) (fun _ => (([] : List ℕ), ([] : List ℕ)))
      (fun _ _ => (0 : ℕ)) (fun _ _ _ => (0 : ℕ)) (fun l _ _ => l) =
      .error .configurationError :=
  c4_unresolvable_question_path _ _ _ _ _ _ rfl (Or.inl ⟨rfl, rfl⟩)

/-- C6 counterexample: with a binary dictionary of length 2,
`load_qst` returns `pitch_indices = [2, 3, 4]` but `pitch_idx = 3`,
which is the second of the three indices, not the first (2). -/
theorem c6_pitch_idx_counterexample :
    (load_qst [0, 1] [0] : QstData ℕ ℕ).pitch_indices = [2, 3, 4] ∧
    (load_qst [0, 1] [0] : QstData ℕ ℕ).pitch_idx = 3 ∧
    (3 : ℕ) ≠ 2 := by
  refine ⟨rfl, rfl, by decide⟩

/-- C6 (amended): `load_qst` returns `pitch_indices` equal to the three
contiguous indices `[len(binary_dict), len(binary_dict) + 1,
len(binary_dict) + 2]` immediately following the binary block, and
`pitch_idx` equal to `len(binary_dict) + 1`, the second of these three
indices. -/
theorem c6_pitch_indices {α β : Type} (binary_dict : List α)
    (continuous_dict : List β) :
    (load_qst binary_dict continuous_dict).pitch_indices =
      [binary_dict.length, binary_dict.length + 1, binary_dict.length + 2] ∧
    (load_qst binary_dict continuous_dict).pitch_idx =
      binary_dict.length + 1 :=
  ⟨rfl, rfl⟩

/-- A line that does not split into exactly three tokens makes
`emitTimingLine` raise the unpacking error. -/
theorem emitTimingLine_of_bad_split (l : List Char)
    (h : (pySplit l).length ≠ 3) :
    emitTimingLine l = .error .unpackError := by
  unfold emitTimingLine
  split
  · rename_i t_start t_end context heq
    exact absurd (by rw [heq]; rfl : (pySplit l).length = 3) h
  · rfl

/-- The only error `emitTimingLine` can raise is the unpacking error. -/
theorem emitTimingLine_error_eq (l : List Char) (e : SynthError)
    (h : emitTimingLine l = .error e) : e = .unpackError := by
  unfold emitTimingLine at h
  split at h
  · exact Except.noConfusion h
  · injection h with h'
    exact h'.symm

/-- C5 counterexample: with a well-formed first line and a malformed
second line, the timing emission raises the unpacking error and aborts;
it does not return the output with the malformed line silently omitted
(which would be `"0 50 c\n"`). -/
theorem c5_malformed_line_counterexample :
    emitTimingLines ["0 50 a^b-c+d=e".toList, "60 70".toList] =
      .error .unpackError ∧
    (Except.error .unpackError :
        Except SynthError (List Char)) ≠ .ok "0 50 c\n".toList := by
  exact ⟨rfl, fun h => Except.noConfusion h⟩

/-- C5 (amended): a line of the stringified timeline that cannot be
split into exactly three whitespace-separated tokens makes the
timing-file emission fail with a fatal unpacking (parse) error — the
remaining lines are not written and the run aborts, rather than the
line being silently omitted. -/
theorem c5_malformed_line_aborts (lines : List (List Char))
    (l : List Char) (hmem : l ∈ lines) (hbad : (pySplit l).length ≠ 3) :
    emitTimingLines lines = .error .unpackError := by
  induction lines with
  | nil => cases hmem
  | cons hd tl ih =>
      rcases List.mem_cons.mp hmem with rfl | hmem'
      · unfold emitTimingLines
        rw [emitTimingLine_of_bad_split l hbad]
      · unfold emitTimingLines
        cases he : emitTimingLine hd with
        | error e => rw [emitTimingLine_error_eq hd e he]
        | ok s => rw [ih hmem']

/-- Witness for C5 (amended) at a concrete malformed line. -/
theorem c5_witness :
    emitTimingLines ["0 50 a^b-c+d=e".toList, "60 70".toList] =
      .error .unpackError :=
  c5_malformed_line_aborts _ "60 70".toList (by decide) (by decide)

/-- `pyFind` never returns anything below `-1`. -/
theorem pyFind_ge_neg_one (s : List Char) (ch : Char) :
    -1 ≤ pyFind s ch := by
  induction s with
  | nil => simp [pyFind]
  | cons x xs ih =>
      unfold pyFind
      split
      · omega
      · split
        · omega
        · omega

/-- A non-negative `pyFind` result is an index into the list. -/
theorem pyFind_lt_length (s : List Char) (ch : Char) (j : Int)
    (h : pyFind s ch = j) (hj : 0 ≤ j) : j.toNat < s.length := by
  induction s generalizing j with
  | nil => simp [pyFind] at h; omega
  | cons x xs ih =>
      unfold pyFind at h
      split at h
      · simp [← h]
      · split at h
        · omega
        · rename_i hne
          have hr := pyFind_ge_neg_one xs ch
          have hr0 : 0 ≤ pyFind xs ch := by omega
          have := ih (pyFind xs ch) rfl hr0
          simp only [List.length_cons]
          omega

/-- C7: when the first `-` of a phonetic context occurs (at index `i`)
before the first `+` (at index `j`), the core-phoneme slice taken by
the code from one past the first `-` up to the first `+` is exactly the
substring strictly between the first `-` and the first `+`; and the
label line `"0 50 a^b-c+d=e"` produces the timing line `"0 50 c\n"`. -/
theorem c7_core_phoneme_extraction (context : List Char) (i j : Int)
    (hi : pyFind context '-' = i) (hj : pyFind context '+' = j)
    (hi0 : 0 ≤ i) (hij : i < j) :
    pySlice context (pyFind context '-' + 1) (pyFind context '+') =
      strictlyBetween context i.toNat j.toNat ∧
    emitTimingLine "0 50 a^b-c+d=e".toList = .ok "0 50 c\n".toList := by
  constructor
  · have hjlen : j.toNat < context.length :=
      pyFind_lt_length context '+' j hj (le_of_lt (lt_of_le_of_lt hi0 hij))
    rw [hi, hj]
    unfold pySlice pyBound strictlyBetween
    rw [if_neg (by omega : ¬ i + 1 < 0), if_neg (by omega : ¬ j < 0)]
    have e1 : min (i + 1).toNat context.length = i.toNat + 1 := by omega
    have e2 : min j.toNat context.length = j.toNat := by omega
    rw [e1, e2]
  · rfl

/-- Witness for C7 at the concrete context `"a^b-c+d=e"`, whose first
`-` is at index 3 and first `+` at index 5. -/
theorem c7_witness :
    pySlice "a^b-c+d=e".toList (pyFind "a^b-c+d=e".toList '-' + 1)
        (pyFind "a^b-c+d=e".toList '+') =
      strictlyBetween "a^b-c+d=e".toList (Int.toNat 3) (Int.toNat 5) ∧
    emitTimingLine "0 50 a^b-c+d=e".toList = .ok "0 50 c\n".toList :=
  c7_core_phoneme_extraction "a^b-c+d=e".toList 3 5 (by decide) (by decide)
    (by decide) (by decide)

/-- C9: the five artifact writes happen in the fixed order timing file,
`.f0`, `.mgc`, `.bap`, audio; when every write succeeds all five are
performed in that order, and when the k-th write (or, for the audio
write, the normalization inside it) raises, exactly the writes before it
have been performed and remain — no rollback. -/
theorem c9_write_order_no_rollback (out_wav_path : List Char)
    (outcome : Artifact → Option SynthError) :
    ((∀ a, outcome a = none) →
      runEmission out_wav_path outcome =
        (emissionOrder.map (fun a => (artifactPath out_wav_path a, a)),
         none)) ∧
    (∀ k : ℕ, k < 5 → ∀ e : SynthError,
      (∀ a ∈ emissionOrder.take k, outcome a = none) →
      outcome (emissionOrder.getD k .audio) = some e →
      runEmission out_wav_path outcome =
        ((emissionOrder.take k).map (fun a => (artifactPath out_wav_path a, a)),
         some e)) := by
  refine ⟨fun h => ?_, fun k hk e hpre hfail => ?_⟩
  · simp [runEmission, runEmissionFrom, emissionOrder, h]
  · interval_cases k
    · replace hfail : outcome Artifact.timing = some e := by
        simpa [emissionOrder] using hfail
      simp [runEmission, runEmissionFrom, emissionOrder, hfail]
    · have h0 : outcome Artifact.timing = none :=
        hpre Artifact.timing (by simp [emissionOrder])
      replace hfail : outcome Artifact.f0 = some e := by
        simpa [emissionOrder] using hfail
      simp [runEmission, runEmissionFrom, emissionOrder, h0, hfail]
    · have h0 : outcome Artifact.timing = none :=
        hpre Artifact.timing (by simp [emissionOrder])
      have h1 : outcome Artifact.f0 = none :=
        hpre Artifact.f0 (by simp [emissionOrder])
      replace hfail : outcome Artifact.mgc = some e := by
        simpa [emissionOrder] using hfail
      simp [runEmission, runEmissionFrom, emissionOrder, h0, h1, hfail]
    · have h0 : outcome Artifact.timing = none :=
        hpre Artifact.timing (by simp [emissionOrder])
      have h1 : outcome Artifact.f0 = none :=
        hpre Artifact.f0 (by simp [emissionOrder])
      have h2 : outcome Artifact.mgc = none :=
        hpre Artifact.mgc (by simp [emissionOrder])
      replace hfail : outcome Artifact.bap = some e := by
        simpa [emissionOrder] using hfail
      simp [runEmission, runEmissionFrom, emissionOrder, h0, h1, h2, hfail]
    · have h0 : outcome Artifact.timing = none :=
        hpre Artifact.timing (by simp [emissionOrder])
      have h1 : outcome Artifact.f0 = none :=
        hpre Artifact.f0 (by simp [emissionOrder])
      have h2 : outcome Artifact.mgc = none :=
        hpre Artifact.mgc (by simp [emissionOrder])
      have h3 : outcome Artifact.bap = none :=
        hpre Artifact.bap (by simp [emissionOrder])
      replace hfail : outcome Artifact.audio = some e := by
        simpa [emissionOrder] using hfail
      simp [runEmission, runEmissionFrom, emissionOrder, h0, h1, h2, h3, hfail]

/-- Witness for C9: the `.bap` write fails, and exactly the timing,
`.f0` and `.mgc` writes remain performed. -/
theorem c9_witness :
    runEmission "x.wav".toList
        (fun a => if a = Artifact.bap
          then some SynthError.artifactWriteError else none) =
      ((emissionOrder.take 3).map
        (fun a => (artifactPath "x.wav".toList a, a)),
       some SynthError.artifactWriteError) :=
  (c9_write_order_no_rollback "x.wav".toList _).2 3 (by norm_num)
    SynthError.artifactWriteError (by decide) (by decide)

/-- When `pat` does not occur in `s`, the replacement scanner leaves `s`
unchanged. -/
theorem pyReplaceAux_of_not_contains (pat rep s : List Char)
    (h : containsSub pat s = false) : pyReplaceAux pat rep 0 s = s := by
  induction s with
  | nil => rfl
  | cons c rest ih =>
      rw [containsSub, Bool.or_eq_false_iff] at h
      unfold pyReplaceAux
      rw [if_neg (by simp [h.1]), ih h.2]

/-- When `pat` does not occur in `s`, Python `s.replace(pat, rep)`
returns `s` unchanged. -/
theorem pyReplace_of_not_contains (pat rep s : List Char)
    (h : containsSub pat s = false) : pyReplace s pat rep = s := by
  have hpat : pat ≠ [] := by
    intro he
    subst he
    cases s <;> simp [containsSub, List.isPrefixOf] at h
  unfold pyReplace
  rw [if_neg hpat]
  exact pyReplaceAux_of_not_contains pat rep s h

/-- C10: each auxiliary output path replaces every occurrence of
`.wav` in `out_wav_path` (shown on a path with a non-trailing and a
trailing occurrence), and for an `out_wav_path` not containing `.wav`
all four auxiliary paths equal `out_wav_path` itself, so the timing
text, the three binary dumps and the audio are successively written to
the same file, each overwriting the previous — the file finally holds
the audio write. -/
theorem c10_aux_path_derivation :
    artifactPath "x.wavy.wav".toList Artifact.timing =
      "x_timing.laby_timing.lab".toList ∧
    ∀ out_wav_path : List Char,
      containsSub dotWav out_wav_path = false →
      (∀ a, artifactPath out_wav_path a = out_wav_path) ∧
      runEmission out_wav_path (fun _ => none) =
        ([(out_wav_path, Artifact.timing), (out_wav_path, Artifact.f0),
          (out_wav_path, Artifact.mgc), (out_wav_path, Artifact.bap),
          (out_wav_path, Artifact.audio)], none) ∧
      fsFinal (runEmission out_wav_path (fun _ => none)).1 out_wav_path =
        some Artifact.audio := by
  refine ⟨by decide, fun out h => ?_⟩
  have hpath : ∀ a, artifactPath out a = out := by
    intro a
    cases a <;> simp [artifactPath, pyReplace_of_not_contains _ _ _ h]
  have hrun : runEmission out (fun _ => none) =
      ([(out, Artifact.timing), (out, Artifact.f0), (out, Artifact.mgc),
        (out, Artifact.bap), (out, Artifact.audio)], none) := by
    simp [runEmission, runEmissionFrom, emissionOrder, hpath]
  refine ⟨hpath, hrun, ?_⟩
  rw [hrun]
  simp [fsFinal, List.find?]

/-- Witness for C10 at a concrete output path without a `.wav`
substring. -/
theorem c10_witness :
    (∀ a, artifactPath "outdir/song".toList a = "outdir/song".toList) ∧
    fsFinal (runEmission "outdir/song".toList (fun _ => none)).1
        "outdir/song".toList = some Artifact.audio :=
  ⟨(c10_aux_path_derivation.2 "outdir/song".toList (by decide)).1,
   (c10_aux_path_derivation.2 "outdir/song".toList (by decide)).2.2⟩

end Hts2Wav
